import Mathlib

/-!
Shallow embedding of `scripts/collect_portraits.py`, a utility that fetches
the largest portrait image stored under a per-identifier bucket path in a
cloud object store and writes two resized JPEG thumbnails per identifier.

Pure helpers of the script are translated to Lean functions.  The effectful
orchestration (`process_identifier`, `main`) is modelled as explicit state
passing over an abstract `Store`, producing a trace of `Event`s; fallible
steps return `Except`.  The behaviour of the two external libraries the
script leans on (`pathlib` suffix parsing and Pillow's `thumbnail`/JPEG
encoder) is embedded from their documented semantics, with exact rational
arithmetic standing in for Pillow's floating-point size computation.
-/

namespace CollectPortraits

/-- Python `str.strip()` (restricted to ASCII whitespace): remove leading and
trailing whitespace characters. -/
def strip (s : String) : String :=
  ⟨(s.data.dropWhile Char.isWhitespace).reverse.dropWhile Char.isWhitespace |>.reverse⟩

/-- Lexicographic comparison of character lists by code point, the order
Python's `sorted` uses on strings. -/
def lexLe : List Char → List Char → Bool
  | [], _ => true
  | _ :: _, [] => false
  | a :: as, b :: bs =>
    if a < b then true
    else if b < a then false
    else lexLe as bs

/-- Lexicographic order on strings by code point (Python's string order). -/
def strLe (a b : String) : Prop := lexLe a.data b.data = true

instance : DecidableRel strLe := fun a b => by unfold strLe; infer_instance

theorem lexLe_total : ∀ as bs, lexLe as bs = true ∨ lexLe bs as = true := by
  intro as
  induction as with
  | nil => intro bs; left; rfl
  | cons a as ih =>
    intro bs
    cases bs with
    | nil => right; rfl
    | cons b bs =>
      rcases lt_trichotomy a b with h | h | h
      · left; simp [lexLe, h]
      · subst h
        rcases ih bs with h2 | h2
        · left; simp [lexLe, lt_irrefl, h2]
        · right; simp [lexLe, lt_irrefl, h2]
      · right; simp [lexLe, h]

theorem lexLe_antisymm : ∀ as bs, lexLe as bs = true → lexLe bs as = true → as = bs := by
  intro as
  induction as with
  | nil =>
    intro bs h1 h2
    cases bs with
    | nil => rfl
    | cons b bs => simp [lexLe] at h2
  | cons a as ih =>
    intro bs h1 h2
    cases bs with
    | nil => simp [lexLe] at h1
    | cons b bs =>
      rcases lt_trichotomy a b with h | h | h
      · simp [lexLe, h, asymm h] at h2
      · subst h
        simp only [lexLe, lt_irrefl, if_false] at h1 h2
        rw [ih bs h1 h2]
      · simp [lexLe, h, asymm h] at h1

theorem lexLe_trans : ∀ as bs cs, lexLe as bs = true → lexLe bs cs = true →
    lexLe as cs = true := by
  intro as
  induction as with
  | nil => intro bs cs h1 h2; rfl
  | cons a as ih =>
    intro bs cs h1 h2
    cases bs with
    | nil => simp [lexLe] at h1
    | cons b bs =>
      cases cs with
      | nil => simp [lexLe] at h2
      | cons c cs =>
        rcases lt_trichotomy a b with hab | hab | hab
        · rcases lt_trichotomy b c with hbc | hbc | hbc
          · simp [lexLe, lt_trans hab hbc]
          · subst hbc; simp [lexLe, hab]
          · simp [lexLe, hbc, asymm hbc] at h2
        · subst hab
          rcases lt_trichotomy a c with hac | hac | hac
          · simp [lexLe, hac]
          · subst hac
            simp only [lexLe, lt_irrefl, if_false] at h1 h2 ⊢
            exact ih bs cs h1 h2
          · simp [lexLe, hac, asymm hac] at h2
        · simp [lexLe, hab, asymm hab] at h1

instance : IsTotal String strLe := ⟨fun a b => lexLe_total a.data b.data⟩

instance : IsTrans String strLe := ⟨fun a b c => lexLe_trans a.data b.data c.data⟩

instance : IsAntisymm String strLe :=
  ⟨fun a b h1 h2 => by
    cases a; cases b
    exact congrArg String.mk (lexLe_antisymm _ _ h1 h2)⟩

instance : IsRefl String strLe :=
  ⟨fun a => by rcases lexLe_total a.data a.data with h | h <;> exact h⟩

/-- The `identifiers` accumulator of `build_identifier_list` (lines 88-96):
the file's lines (each stripped, empties dropped) followed by the repeated
`--id` values (each stripped, empties dropped).  The optional file is given
as its list of lines (the result of `splitlines`); `none` models an absent
`--from-file`. -/
def resolvedEntries (fromFile : Option (List String)) (ids : List String) : List String :=
  (match fromFile with
   | some lines => (lines.map strip).filter (fun s => !(s == ""))
   | none => []) ++ (ids.map strip).filter (fun s => !(s == ""))

/-- Function `build_identifier_list` (lines 87-101): `deduped = sorted(set(identifiers))`,
raising `SystemExit` when the result is empty.  `sorted(set(..))`, the sorted
list of the distinct entries, is embedded as an insertion sort of the
deduplicated list under the code-point order `strLe`. -/
def build_identifier_list (fromFile : Option (List String)) (ids : List String) :
    Except String (List String) :=
  let deduped := List.insertionSort strLe (resolvedEntries fromFile ids).dedup
  if deduped = [] then Except.error "No identifiers provided. Use --id or --from-file."
  else Except.ok deduped

/-- A remote object: a name (path-like key) and a size in bytes, which the
store may not know (`blob.size` can be `None`). -/
structure Blob where
  name : String
  size : Option ℕ
deriving DecidableEq

/-- The sort key `lambda blob: blob.size or 0` of `choose_primary_blob`
(line 119): an unknown size counts as zero. -/
def blobKey (b : Blob) : ℕ := b.size.getD 0

/-- Python's `max(xs, key=k)` on the non-empty list `a :: l`: scan left to
right, replacing the current maximum only when a strictly greater key is
seen (so the first maximal element wins ties). -/
def pymax {α β : Type} [LinearOrder β] (key : α → β) (a : α) (l : List α) : α :=
  l.foldl (fun cur x => if key cur < key x then x else cur) a

/-- Function `choose_primary_blob` (lines 113-119): `None` on an empty listing, else
`max(blobs, key=lambda blob: blob.size or 0)`. -/
def choose_primary_blob (blobs : List Blob) : Option Blob :=
  match blobs with
  | [] => none
  | b :: bs => some (pymax blobKey b bs)

/-- Split a character list at every `'/'` (the separator of blob keys and of
POSIX `pathlib` paths). -/
def splitSlash : List Char → List (List Char)
  | [] => [[]]
  | c :: rest =>
    match splitSlash rest with
    | [] => [[]]
    | seg :: segs => if c = '/' then [] :: seg :: segs else (c :: seg) :: segs

/-- Model of `PurePosixPath(name).name`: the last path component after dropping empty
segments (repeated or trailing separators) and `"."` segments, or `""` when
none remains. -/
def pathName (s : String) : List Char :=
  ((splitSlash s.data).filter (fun p => !(p == []) && !(p == ['.']))).getLastD []

/-- Index of the last `'.'` in a character list (Python `str.rfind('.')`),
scanning with an explicit position accumulator; `none` when absent. -/
def rfindDotAux : List Char → ℕ → Option ℕ
  | [], _ => none
  | c :: rest, i =>
    match rfindDotAux rest (i + 1) with
    | some j => some j
    | none => if c = '.' then some i else none

/-- Python `name.rfind('.')` as an optional index. -/
def rfindDot (cs : List Char) : Option ℕ := rfindDotAux cs 0

/-- Model of `PurePosixPath(s).suffix`: take the `name` component, find the last dot,
and return the substring from it when the dot is neither the first nor the
last character of the name (`0 < i < len(name) - 1`), else `""`. -/
def pathSuffix (s : String) : String :=
  let name := pathName s
  match rfindDot name with
  | none => ""
  | some i => if 0 < i ∧ i + 1 < name.length then ⟨name.drop i⟩ else ""

/-- Python `str.lower()` restricted to ASCII letters, enough for file
extensions. -/
def lowerString (s : String) : String := ⟨s.data.map Char.toLower⟩

/-- The allow-list `IMAGE_EXTENSIONS` (line 33). -/
def IMAGE_EXTENSIONS : List String := [".jpg", ".jpeg", ".png", ".webp", ".gif"]

/-- Function `is_image_blob` (lines 109-110): `Path(name).suffix.lower() in
IMAGE_EXTENSIONS`. -/
def is_image_blob (name : String) : Bool :=
  decide (lowerString (pathSuffix name) ∈ IMAGE_EXTENSIONS)

/-- Python `name.endswith("/")`. -/
def endsWithSlash (s : String) : Bool := s.data.getLast? == some '/'

/-- The filter applied to the bucket listing (lines 142-146): keep a blob iff
`not blob.name.endswith("/") and is_image_blob(blob.name)`. -/
def blobEligible (name : String) : Bool := !(endsWithSlash name) && is_image_blob name

/-- Pillow colour modes relevant to the script: `RGB` (3-channel colour),
`RGBA` (colour with alpha), plus the other common decode results the
`image.mode not in ("RGB", "RGBA")` test can see. -/
inductive Mode where
  | RGB
  | RGBA
  | L
  | P
  | LA
  | CMYK
  | YCbCr
deriving DecidableEq

/-- Printable mode names, as interpolated into Pillow error messages. -/
def modeName : Mode → String
  | Mode.RGB => "RGB"
  | Mode.RGBA => "RGBA"
  | Mode.L => "L"
  | Mode.P => "P"
  | Mode.LA => "LA"
  | Mode.CMYK => "CMYK"
  | Mode.YCbCr => "YCbCr"

/-- Modelled from Pillow's JPEG plugin: the modes its JPEG encoder accepts
(`RAWMODE` keys `1, L, RGB, RGBX, CMYK, YCbCr`).  Saving any other mode,
notably `RGBA` and palette mode `P`, raises
`OSError: cannot write mode ... as JPEG`. -/
def jpegSaveable : Mode → Bool
  | Mode.L => true
  | Mode.RGB => true
  | Mode.CMYK => true
  | Mode.YCbCr => true
  | _ => false

/-- A decoded in-memory image: pixel dimensions and colour mode. -/
structure PILImage where
  width : ℕ
  height : ℕ
  mode : Mode
deriving DecidableEq

/-- Modelled from Pillow `Image.thumbnail`'s `round_aspect` helper:
`max(min(floor(number), ceil(number), key=key), 1)` — of floor and ceiling,
the one with the smaller key (floor on a key tie), clamped below by 1.
Exact rationals stand in for Python floats. -/
def round_aspect (q : ℚ) (key : ℤ → ℚ) : ℤ :=
  max (if key ⌊q⌋ ≤ key ⌈q⌉ then ⌊q⌋ else ⌈q⌉) 1

/-- Modelled from Pillow `Image.thumbnail`: the size `(x, y)` it shrinks a
`w × h` image into.  If the image already fits the box it is left unchanged;
otherwise the aspect ratio `w / h` is preserved by recomputing one
coordinate with `round_aspect`.  Exact rationals stand in for Python
floats. -/
def thumbnail_size (w h x y : ℕ) : ℕ × ℕ :=
  if w ≤ x ∧ h ≤ y then (w, h)
  else
    if (w : ℚ) / (h : ℚ) ≤ (x : ℚ) / (y : ℚ) then
      ((round_aspect ((y : ℚ) * ((w : ℚ) / (h : ℚ)))
          (fun n => |(w : ℚ) / (h : ℚ) - (n : ℚ) / (y : ℚ)|)).toNat, y)
    else
      (x, (round_aspect ((x : ℚ) / ((w : ℚ) / (h : ℚ)))
          (fun n => if n = 0 then 0 else |(w : ℚ) / (h : ℚ) - (x : ℚ) / (n : ℚ)|)).toNat)

/-- Pillow `image.thumbnail(size, LANCZOS)` on the model: resize in place to
`thumbnail_size`, keeping the colour mode. -/
def PILImage.thumbnail (image : PILImage) (size : ℕ × ℕ) : PILImage :=
  ⟨(thumbnail_size image.width image.height size.1 size.2).1,
    (thumbnail_size image.width image.height size.1 size.2).2, image.mode⟩

/-- The object store, the script's external collaborator: list the blobs
under a bucket and key path, and download-and-decode a blob by name (the
composite of `download_as_bytes` and `Image.open`, either of which can
fail — transport error or undecodable bytes). -/
structure Store where
  listBlobs : String → String → List Blob
  download : String → Except String PILImage

/-- Observable side effects of a run, in order: constructing the storage
client, a listing request, a download, a file write (with the written
thumbnail's dimensions), and the two warning logs. -/
inductive Event where
  | clientConstructed : Event
  | listBlobs : String → String → Event
  | download : String → Event
  | writeFile : List String → ℕ → ℕ → Event
  | warnNoImages : String → Event
  | warnNoPortrait : String → Event
deriving DecidableEq

/-- Python `identifier.rstrip('/')`. -/
def rstripSlash (s : String) : String := ⟨(s.data.reverse.dropWhile (· == '/')).reverse⟩

/-- The listing key path built at line 140: `f"{identifier.rstrip('/')}/"`. -/
def listingRoot (ident : String) : String := rstripSlash ident ++ "/"

/-- The filtered candidate list of lines 142-146: blobs under the
identifier's key path whose names do not end in `/` and carry an allowed
image extension. -/
def filteredBlobs (store : Store) (bucket ident : String) : List Blob :=
  (store.listBlobs bucket (listingRoot ident)).filter (fun b => blobEligible b.name)

/-- A successfully written thumbnail file: destination path (as path
components) and pixel dimensions. -/
structure SavedFile where
  path : List String
  width : ℕ
  height : ℕ
deriving DecidableEq

/-- Dataclass `ThumbnailSpec` (lines 36-45): name, bounding box, output suffix. -/
structure ThumbnailSpec where
  name : String
  size : ℕ × ℕ
  suffix : String
deriving DecidableEq

/-- Method `ThumbnailSpec.destination` (lines 44-45): the name and the output
suffix appended as one final component under the base path. -/
def ThumbnailSpec.destination (spec : ThumbnailSpec) (basePath : List String) : List String :=
  basePath ++ [spec.name ++ spec.suffix]

/-- Constant `THUMBNAILS` (lines 48-51): the two statically configured outputs. -/
def THUMBNAILS : List ThumbnailSpec :=
  [⟨"cover", (512, 512), ".jpg"⟩, ⟨"profile", (256, 256), ".jpg"⟩]

/-- Function `download_image` (lines 122-127): download and decode, then convert to
`RGB` unless the decoded mode is already `RGB` or `RGBA`. -/
def download_image (store : Store) (name : String) : Except String PILImage :=
  (store.download name).map fun image =>
    if image.mode = Mode.RGB ∨ image.mode = Mode.RGBA then image
    else ⟨image.width, image.height, Mode.RGB⟩

/-- Function `save_thumbnail` (lines 130-134): shrink a copy with `thumbnail` and save
it as JPEG; Pillow's encoder rejects modes outside `jpegSaveable` with
`OSError: cannot write mode ... as JPEG`. -/
def save_thumbnail (image : PILImage) (destination : List String) (size : ℕ × ℕ) :
    Except String SavedFile :=
  let t := image.thumbnail size
  if jpegSaveable t.mode then Except.ok ⟨destination, t.width, t.height⟩
  else Except.error ("cannot write mode " ++ modeName t.mode ++ " as JPEG")

/-- The `for spec in THUMBNAILS` loop of lines 161-164: save each configured
thumbnail under `person_dir`, recording a write event per saved file and
propagating the first encoder error. -/
def saveAll (image : PILImage) (personDir : List String) :
    List ThumbnailSpec → List Event × Except String Unit
  | [] => ([], Except.ok ())
  | spec :: rest =>
    match save_thumbnail image (spec.destination personDir) spec.size with
    | Except.error e => ([], Except.error e)
    | Except.ok f =>
      let r := saveAll image personDir rest
      (Event.writeFile f.path f.width f.height :: r.1, r.2)

/-- Function `process_identifier` (lines 137-164): list and filter the blobs, warn and
return on an empty candidate set, pick the primary blob, download it and
write the thumbnails under `output_dir / identifier`.  Download, decode and
encode failures propagate as `Except.error`. -/
def process_identifier (store : Store) (bucket ident : String) (output : List String) :
    List Event × Except String Unit :=
  let root := listingRoot ident
  let blobs := filteredBlobs store bucket ident
  if blobs = [] then ([Event.listBlobs bucket root, Event.warnNoImages ident], Except.ok ())
  else
    match choose_primary_blob blobs with
    | none => ([Event.listBlobs bucket root, Event.warnNoPortrait ident], Except.ok ())
    | some blob =>
      match download_image store blob.name with
      | Except.error e =>
        ([Event.listBlobs bucket root, Event.download blob.name], Except.error e)
      | Except.ok image =>
        let r := saveAll image (output ++ [ident]) THUMBNAILS
        (Event.listBlobs bucket root :: Event.download blob.name :: r.1, r.2)

/-- The `for identifier in identifiers` loop of lines 174-175: strictly
sequential, stopping at the first propagated error; returns 0 otherwise. -/
def runIdentifiers (store : Store) (bucket : String) (output : List String) :
    List String → List Event × Except String ℕ
  | [] => ([], Except.ok 0)
  | ident :: rest =>
    let r := process_identifier store bucket ident output
    match r.2 with
    | Except.error e => (r.1, Except.error e)
    | Except.ok _ =>
      let rs := runIdentifiers store bucket output rest
      (r.1 ++ rs.1, rs.2)

/-- Function `main` (lines 167-177): resolve the identifier list (fatal `SystemExit`
when empty, before the storage client exists), construct the client, then
process each identifier in order. -/
def main (store : Store) (fromFile : Option (List String)) (ids : List String)
    (bucket : String) (output : List String) : List Event × Except String ℕ :=
  match build_identifier_list fromFile ids with
  | Except.error e => ([], Except.error e)
  | Except.ok identifiers =>
    let r := runIdentifiers store bucket output identifiers
    (Event.clientConstructed :: r.1, r.2)

theorem round_aspect_le {q : ℚ} {key : ℤ → ℚ} {c : ℤ} (h1 : 1 ≤ c) (h2 : q ≤ (c : ℚ)) :
    round_aspect q key ≤ c := by
  unfold round_aspect
  have hce : ⌈q⌉ ≤ c := Int.ceil_le.mpr h2
  have hfl : ⌊q⌋ ≤ c := le_trans (Int.floor_le_ceil q) hce
  rcases le_or_lt (key ⌊q⌋) (key ⌈q⌉) with h | h
  · rw [if_pos h]; exact max_le hfl h1
  · rw [if_neg (not_le.mpr h)]; exact max_le hce h1

theorem one_le_round_aspect (q : ℚ) (key : ℤ → ℚ) : 1 ≤ round_aspect q key :=
  le_max_right _ _

theorem round_aspect_close {q : ℚ} (key : ℤ → ℚ) (hq : 0 < q) :
    |((round_aspect q key : ℤ) : ℚ) - q| ≤ 1 := by
  unfold round_aspect
  set c := if key ⌊q⌋ ≤ key ⌈q⌉ then ⌊q⌋ else ⌈q⌉ with hc
  have hcfc : c = ⌊q⌋ ∨ c = ⌈q⌉ := by rw [hc]; split_ifs <;> simp
  have hfl : |((⌊q⌋ : ℤ) : ℚ) - q| ≤ 1 := by
    rw [abs_sub_comm, abs_of_nonneg (sub_nonneg.mpr (Int.floor_le q))]
    linarith [Int.sub_one_lt_floor q]
  have hceil : |((⌈q⌉ : ℤ) : ℚ) - q| ≤ 1 := by
    rw [abs_of_nonneg (sub_nonneg.mpr (Int.le_ceil q))]
    linarith [Int.ceil_lt_add_one q]
  rcases le_or_lt 1 c with h1 | h1
  · rw [max_eq_left h1]
    rcases hcfc with h | h <;> rw [h]
    · exact hfl
    · exact hceil
  · rw [max_eq_right (le_of_lt h1)]
    have hceilpos : (1 : ℤ) ≤ ⌈q⌉ := Int.ceil_pos.mpr hq
    have hcfl : c = ⌊q⌋ := by
      rcases hcfc with h | h
      · exact h
      · exfalso; omega
    have hqlt : q < 1 := by
      have hfl1 : ⌊q⌋ < (1 : ℤ) := by omega
      exact_mod_cast Int.floor_lt.mp hfl1
    push_cast
    rw [abs_of_nonneg (by linarith)]
    linarith

theorem thumbnail_size_spec (w h x y : ℕ) (hw : 1 ≤ w) (hh : 1 ≤ h) (hx : 1 ≤ x)
    (hy : 1 ≤ y) :
    (thumbnail_size w h x y).1 ≤ x ∧ (thumbnail_size w h x y).2 ≤ y ∧
    (thumbnail_size w h x y).1 ≤ w ∧ (thumbnail_size w h x y).2 ≤ h ∧
    1 ≤ (thumbnail_size w h x y).1 ∧ 1 ≤ (thumbnail_size w h x y).2 ∧
    |((thumbnail_size w h x y).1 : ℤ) * h - ((thumbnail_size w h x y).2 : ℤ) * w| ≤
      (max w h : ℤ) := by
  have hw0 : (0 : ℚ) < w := by exact_mod_cast hw
  have hh0 : (0 : ℚ) < h := by exact_mod_cast hh
  have hx0 : (0 : ℚ) < x := by exact_mod_cast hx
  have hy0 : (0 : ℚ) < y := by exact_mod_cast hy
  unfold thumbnail_size
  by_cases hA : w ≤ x ∧ h ≤ y
  · rw [if_pos hA]
    refine ⟨hA.1, hA.2, le_refl _, le_refl _, hw, hh, ?_⟩
    have : ((w : ℤ) * h - (h : ℤ) * w) = 0 := by ring
    rw [this]
    simp
  · rw [if_neg hA]
    by_cases hB : (w : ℚ) / h ≤ (x : ℚ) / y
    · rw [if_pos hB]
      set q : ℚ := (y : ℚ) * ((w : ℚ) / (h : ℚ)) with hqdef
      have hq0 : 0 < q := by positivity
      have hwyxh : (w : ℚ) * y ≤ (x : ℚ) * h := by
        rw [div_le_div_iff hh0 hy0] at hB
        exact hB
      have hqx : q ≤ (x : ℚ) := by
        rw [hqdef, mul_div_assoc']
        rw [div_le_iff hh0]
        nlinarith
      have hyh : y ≤ h := by
        by_contra hcon
        have hhy : (h : ℚ) < y := by exact_mod_cast Nat.lt_of_not_le hcon
        have hwx : (w : ℚ) < x := by nlinarith
        exact hA ⟨by exact_mod_cast hwx.le, by exact_mod_cast hhy.le⟩
      have hqw : q ≤ (w : ℚ) := by
        rw [hqdef, mul_div_assoc']
        rw [div_le_iff hh0]
        have : (y : ℚ) ≤ h := by exact_mod_cast hyh
        nlinarith
      set key : ℤ → ℚ := fun n => |(w : ℚ) / (h : ℚ) - (n : ℚ) / (y : ℚ)| with hkey
      have hrx : round_aspect q key ≤ (x : ℤ) := round_aspect_le (by exact_mod_cast hx) hqx
      have hrw : round_aspect q key ≤ (w : ℤ) := round_aspect_le (by exact_mod_cast hw) hqw
      have hr1 : 1 ≤ round_aspect q key := one_le_round_aspect q key
      have hclose := round_aspect_close key hq0
      set r : ℤ := round_aspect q key with hrdef
      have hrtn : ((r.toNat : ℕ) : ℤ) = r := Int.toNat_of_nonneg (by omega)
      refine ⟨?_, le_refl _, ?_, hyh, ?_, hy, ?_⟩
      · show r.toNat ≤ x
        omega
      · show r.toNat ≤ w
        omega
      · show 1 ≤ r.toNat
        omega
      · show |((r.toNat : ℕ) : ℤ) * h - (y : ℤ) * w| ≤ (max w h : ℤ)
        rw [hrtn]
        have hqh : q * h = (y : ℚ) * w := by
          rw [hqdef]
          field_simp
        have habs : |(r : ℚ) * h - (y : ℚ) * w| ≤ (h : ℚ) := by
          rw [← hqh]
          have : (r : ℚ) * h - q * h = ((r : ℚ) - q) * h := by ring
          rw [this, abs_mul, abs_of_pos hh0]
          calc |(r : ℚ) - q| * h ≤ 1 * h := by
                exact mul_le_mul_of_nonneg_right hclose (le_of_lt hh0)
            _ = h := one_mul _
        have hZ : |r * (h : ℤ) - (y : ℤ) * w| ≤ (h : ℤ) := by
          have hcast : ((|r * (h : ℤ) - (y : ℤ) * w| : ℤ) : ℚ) = |(r : ℚ) * h - (y : ℚ) * w| := by
            push_cast
            rfl
          exact_mod_cast hcast ▸ habs
        calc |r * (h : ℤ) - (y : ℤ) * w| ≤ (h : ℤ) := hZ
          _ ≤ (max w h : ℤ) := by
            have := le_max_right w h
            exact_mod_cast this
    · rw [if_neg hB]
      have hBlt : (x : ℚ) / y < (w : ℚ) / h := lt_of_not_le hB
      have hxhwy : (x : ℚ) * h < (w : ℚ) * y := by
        rw [div_lt_div_iff hy0 hh0] at hBlt
        exact hBlt
      have hxw : x ≤ w := by
        by_contra hcon
        have hwx : (w : ℚ) < x := by exact_mod_cast Nat.lt_of_not_le hcon
        have hhy : (h : ℚ) < y := by nlinarith
        exact hA ⟨by exact_mod_cast hwx.le, by exact_mod_cast hhy.le⟩
      set q : ℚ := (x : ℚ) / ((w : ℚ) / (h : ℚ)) with hqdef
      have hqalt : q = (x : ℚ) * h / w := by
        rw [hqdef, div_div_eq_mul_div]
      have hq0 : 0 < q := by rw [hqalt]; positivity
      have hqy : q ≤ (y : ℚ) := by
        rw [hqalt, div_le_iff hw0]
        nlinarith
      have hqh : q ≤ (h : ℚ) := by
        rw [hqalt, div_le_iff hw0]
        have : (x : ℚ) ≤ w := by exact_mod_cast hxw
        nlinarith
      set key : ℤ → ℚ :=
        fun n => if n = 0 then 0 else |(w : ℚ) / (h : ℚ) - (x : ℚ) / (n : ℚ)| with hkey
      have hry : round_aspect q key ≤ (y : ℤ) := round_aspect_le (by exact_mod_cast hy) hqy
      have hrh : round_aspect q key ≤ (h : ℤ) := round_aspect_le (by exact_mod_cast hh) hqh
      have hr1 : 1 ≤ round_aspect q key := one_le_round_aspect q key
      have hclose := round_aspect_close key hq0
      set r : ℤ := round_aspect q key with hrdef
      have hrtn : ((r.toNat : ℕ) : ℤ) = r := Int.toNat_of_nonneg (by omega)
      refine ⟨le_refl _, ?_, hxw, ?_, hx, ?_, ?_⟩
      · show r.toNat ≤ y
        omega
      · show r.toNat ≤ h
        omega
      · show 1 ≤ r.toNat
        omega
      · show |((x : ℕ) : ℤ) * h - ((r.toNat : ℕ) : ℤ) * w| ≤ (max w h : ℤ)
        rw [hrtn]
        have hqw : q * w = (x : ℚ) * h := by
          rw [hqalt]
          field_simp
        have habs : |(x : ℚ) * h - (r : ℚ) * w| ≤ (w : ℚ) := by
          rw [← hqw]
          have : q * w - (r : ℚ) * w = -(((r : ℚ) - q) * w) := by ring
          rw [this, abs_neg, abs_mul, abs_of_pos hw0]
          calc |(r : ℚ) - q| * w ≤ 1 * w := by
                exact mul_le_mul_of_nonneg_right hclose (le_of_lt hw0)
            _ = w := one_mul _
        have hZ : |(x : ℤ) * h - r * w| ≤ (w : ℤ) := by
          have hcast : ((|(x : ℤ) * h - r * w| : ℤ) : ℚ) = |(x : ℚ) * h - (r : ℚ) * w| := by
            push_cast
            rfl
          exact_mod_cast hcast ▸ habs
        calc |(x : ℤ) * h - r * w| ≤ (w : ℤ) := hZ
          _ ≤ (max w h : ℤ) := by
            have := le_max_left w h
            exact_mod_cast this

theorem pymax_cons {α β : Type} [LinearOrder β] (key : α → β) (a x : α) (xs : List α) :
    pymax key a (x :: xs) = pymax key (if key a < key x then x else a) xs := rfl

theorem some_pymax_eq_foldl {α β : Type} [LinearOrder β] (key : α → β) :
    ∀ (l : List α) (a : α),
      some (pymax key a l) =
        List.foldl (List.argAux fun b c => key c < key b) (some a) l := by
  intro l
  induction l with
  | nil => intro a; rfl
  | cons x xs ih =>
    intro a
    have hg : List.argAux (fun b c => key c < key b) (some a) x =
        if key a < key x then some x else some a := rfl
    rw [pymax_cons, List.foldl_cons, hg]
    by_cases h : key a < key x
    · rw [if_pos h, if_pos h, ih x]
    · rw [if_neg h, if_neg h, ih a]

/-- Bridging lemma: `choose_primary_blob` agrees with Mathlib's `List.argmax`, whose tie
behaviour (first maximal element wins) matches Python's `max`. -/
theorem choose_primary_blob_eq_argmax (l : List Blob) :
    choose_primary_blob l = List.argmax blobKey l := by
  cases l with
  | nil => rfl
  | cons b bs =>
    show some (pymax blobKey b bs) = List.argmax blobKey (b :: bs)
    rw [some_pymax_eq_foldl]
    rfl

theorem choose_primary_blob_isSome {l : List Blob} (h : l ≠ []) :
    (choose_primary_blob l).isSome = true := by
  cases l with
  | nil => exact absurd rfl h
  | cons b bs => rfl

/-- The two entry sources merge into one cleanup pass over their
concatenation. -/
theorem resolvedEntries_eq (fromFile : Option (List String)) (ids : List String) :
    resolvedEntries fromFile ids =
      ((fromFile.getD [] ++ ids).map strip).filter (fun s => !(s == "")) := by
  cases fromFile <;>
    simp [resolvedEntries, List.map_append, List.filter_append]

/-- Permuting the combined raw input does not change the outcome of
`build_identifier_list`. -/
theorem build_identifier_list_perm (fl₁ fl₂ : Option (List String))
    (ids₁ ids₂ : List String)
    (hperm : (fl₁.getD [] ++ ids₁).Perm (fl₂.getD [] ++ ids₂)) :
    build_identifier_list fl₁ ids₁ = build_identifier_list fl₂ ids₂ := by
  have h1 : (resolvedEntries fl₁ ids₁).Perm (resolvedEntries fl₂ ids₂) := by
    rw [resolvedEntries_eq, resolvedEntries_eq]
    exact (hperm.map strip).filter _
  have hsorted : List.insertionSort strLe (resolvedEntries fl₁ ids₁).dedup =
      List.insertionSort strLe (resolvedEntries fl₂ ids₂).dedup := by
    have hp : (List.insertionSort strLe (resolvedEntries fl₁ ids₁).dedup).Perm
        (List.insertionSort strLe (resolvedEntries fl₂ ids₂).dedup) :=
      ((List.perm_insertionSort strLe _).trans h1.dedup).trans
        (List.perm_insertionSort strLe _).symm
    have hs₁ : List.Sorted strLe (List.insertionSort strLe (resolvedEntries fl₁ ids₁).dedup) :=
      List.sorted_insertionSort strLe _
    have hs₂ : List.Sorted strLe (List.insertionSort strLe (resolvedEntries fl₂ ids₂).dedup) :=
      List.sorted_insertionSort strLe _
    exact List.eq_of_perm_of_sorted hp hs₁ hs₂
  unfold build_identifier_list
  rw [hsorted]

theorem build_identifier_list_ok {fromFile : Option (List String)} {ids : List String}
    {l : List String} (hok : build_identifier_list fromFile ids = Except.ok l) :
    l = List.insertionSort strLe (resolvedEntries fromFile ids).dedup := by
  unfold build_identifier_list at hok
  by_cases h : List.insertionSort strLe (resolvedEntries fromFile ids).dedup = []
  · rw [if_pos h] at hok
    exact absurd hok (by simp)
  · rw [if_neg h] at hok
    exact (Except.ok.inj hok).symm

theorem runIdentifiers_cons_ok {store : Store} {bucket : String} {output : List String}
    {a : String} (rest : List String)
    (h : (process_identifier store bucket a output).2 = Except.ok ()) :
    runIdentifiers store bucket output (a :: rest) =
      ((process_identifier store bucket a output).1 ++
        (runIdentifiers store bucket output rest).1,
       (runIdentifiers store bucket output rest).2) := by
  simp only [runIdentifiers, h]

theorem runIdentifiers_cons_error {store : Store} {bucket : String} {output : List String}
    {a : String} {e : String} (rest : List String)
    (h : (process_identifier store bucket a output).2 = Except.error e) :
    runIdentifiers store bucket output (a :: rest) =
      ((process_identifier store bucket a output).1, Except.error e) := by
  simp only [runIdentifiers, h]

theorem runIdentifiers_all_ok {store : Store} {bucket : String} {output : List String} :
    ∀ l : List String,
      (∀ ident ∈ l, (process_identifier store bucket ident output).2 = Except.ok ()) →
      (runIdentifiers store bucket output l).2 = Except.ok 0 := by
  intro l
  induction l with
  | nil => intro _; rfl
  | cons a rest ih =>
    intro h
    rw [runIdentifiers_cons_ok rest (h a (List.mem_cons_self a rest))]
    exact ih fun i hi => h i (List.mem_cons_of_mem a hi)

theorem runIdentifiers_append_ok {store : Store} {bucket : String} {output : List String} :
    ∀ (pre : List String) (rest : List String),
      (∀ a ∈ pre, (process_identifier store bucket a output).2 = Except.ok ()) →
      runIdentifiers store bucket output (pre ++ rest) =
        ((pre.map fun a => (process_identifier store bucket a output).1).join ++
          (runIdentifiers store bucket output rest).1,
         (runIdentifiers store bucket output rest).2) := by
  intro pre
  induction pre with
  | nil => intro rest _; simp
  | cons a pre ih =>
    intro rest h
    rw [List.cons_append, runIdentifiers_cons_ok (pre ++ rest)
      (h a (List.mem_cons_self a pre))]
    rw [ih rest fun i hi => h i (List.mem_cons_of_mem a hi)]
    simp [List.append_assoc]

theorem mem_saveAll_events {image : PILImage} {personDir : List String} :
    ∀ (specs : List ThumbnailSpec) (e : Event), e ∈ (saveAll image personDir specs).1 →
      ∃ p a b, e = Event.writeFile p a b := by
  intro specs
  induction specs with
  | nil => intro e he; simp [saveAll] at he
  | cons spec rest ih =>
    intro e he
    unfold saveAll at he
    cases hsave : save_thumbnail image (spec.destination personDir) spec.size with
    | error msg => rw [hsave] at he; simp at he
    | ok f =>
      rw [hsave] at he
      simp only [List.mem_cons] at he
      rcases he with he | he
      · exact ⟨f.path, f.width, f.height, he⟩
      · exact ih e he

/-- Reduction of `process_identifier` once a primary blob has been chosen. -/
theorem process_identifier_download (store : Store) (bucket ident : String)
    (output : List String) (blob : Blob)
    (hne : filteredBlobs store bucket ident ≠ [])
    (hch : choose_primary_blob (filteredBlobs store bucket ident) = some blob) :
    process_identifier store bucket ident output =
      (match download_image store blob.name with
       | Except.error e =>
         ([Event.listBlobs bucket (listingRoot ident), Event.download blob.name],
           Except.error e)
       | Except.ok image =>
         (Event.listBlobs bucket (listingRoot ident) ::
            Event.download blob.name :: (saveAll image (output ++ [ident]) THUMBNAILS).1,
          (saveAll image (output ++ [ident]) THUMBNAILS).2)) := by
  simp only [process_identifier]
  rw [if_neg hne]
  simp only [hch]

/-- Evaluation of `saveAll` on an RGB image: both configured thumbnails encode, in order. -/
theorem saveAll_rgb (w h : ℕ) (dir : List String) :
    saveAll ⟨w, h, Mode.RGB⟩ dir THUMBNAILS =
      ([Event.writeFile (dir ++ ["cover.jpg"]) (thumbnail_size w h 512 512).1
          (thumbnail_size w h 512 512).2,
        Event.writeFile (dir ++ ["profile.jpg"]) (thumbnail_size w h 256 256).1
          (thumbnail_size w h 256 256).2],
       Except.ok ()) := rfl

/-- A store whose listings are empty and whose downloads never happen. -/
def emptyStore : Store := ⟨fun _ _ => [], fun _ => Except.error "unreachable"⟩

/-- A demo listing with two blobs tied at the maximal size. -/
def demoTieList : List Blob := [⟨"a", some 5⟩, ⟨"b", some 50⟩, ⟨"c", some 50⟩]

/-- C2: for every non-empty blob list, `choose_primary_blob` returns a member
whose key (`size or 0`, unknown size as zero) is maximal; on blobs of sizes
`[10, 50, 5]` it returns the blob of size 50. -/
theorem claim_C2_selector_max :
    (∀ l : List Blob, l ≠ [] →
      ∃ m, choose_primary_blob l = some m ∧ m ∈ l ∧ ∀ a ∈ l, blobKey a ≤ blobKey m) ∧
    choose_primary_blob [⟨"a", some 10⟩, ⟨"b", some 50⟩, ⟨"c", some 5⟩] =
      some ⟨"b", some 50⟩ := by
  constructor
  · intro l hl
    cases hsome : choose_primary_blob l with
    | none =>
      rw [choose_primary_blob_eq_argmax] at hsome
      exact absurd (List.argmax_eq_none.mp hsome) hl
    | some m =>
      have hm : List.argmax blobKey l = some m := by
        rw [← choose_primary_blob_eq_argmax]
        exact hsome
      exact ⟨m, rfl, List.argmax_mem (Option.mem_def.mpr hm),
        fun a ha => List.le_of_mem_argmax ha (Option.mem_def.mpr hm)⟩
  · decide

/-- Witness for C2 at the spec's example listing. -/
theorem claim_C2_selector_max_witness :
    ([⟨"a", some 10⟩, ⟨"b", some 50⟩, ⟨"c", some 5⟩] : List Blob) ≠ [] ∧
    ∃ m, choose_primary_blob [⟨"a", some 10⟩, ⟨"b", some 50⟩, ⟨"c", some 5⟩] = some m ∧
      m ∈ ([⟨"a", some 10⟩, ⟨"b", some 50⟩, ⟨"c", some 5⟩] : List Blob) ∧
      ∀ a ∈ ([⟨"a", some 10⟩, ⟨"b", some 50⟩, ⟨"c", some 5⟩] : List Blob),
        blobKey a ≤ blobKey m :=
  ⟨by decide, claim_C2_selector_max.1 _ (by decide)⟩

/-- C10: on a listing with ties at the maximal key, `choose_primary_blob`
deterministically returns the maximal blob that comes first in listing order
(its index is minimal among all blobs of maximal key). -/
theorem claim_C10_selector_first_on_ties (l : List Blob) (b c : Blob)
    (hb : b ∈ l) (hc : c ∈ l) (hbc : b ≠ c) (htie : blobKey b = blobKey c)
    (hmax : ∀ a ∈ l, blobKey a ≤ blobKey b) :
    ∃ m, choose_primary_blob l = some m ∧ m ∈ l ∧ (∀ a ∈ l, blobKey a ≤ blobKey m) ∧
      ∀ a ∈ l, blobKey m ≤ blobKey a → l.indexOf m ≤ l.indexOf a := by
  cases hsome : choose_primary_blob l with
  | none =>
    rw [choose_primary_blob_eq_argmax] at hsome
    exact absurd (List.argmax_eq_none.mp hsome) (List.ne_nil_of_mem hb)
  | some m =>
    have hm : List.argmax blobKey l = some m := by
      rw [← choose_primary_blob_eq_argmax]
      exact hsome
    have h3 := List.argmax_eq_some_iff.mp hm
    exact ⟨m, rfl, h3.1, h3.2.1, h3.2.2⟩

/-- Witness for C10 on a listing with two blobs tied at size 50. -/
theorem claim_C10_selector_first_on_ties_witness :
    (⟨"b", some 50⟩ : Blob) ∈ demoTieList ∧ (⟨"c", some 50⟩ : Blob) ∈ demoTieList ∧
    (⟨"b", some 50⟩ : Blob) ≠ (⟨"c", some 50⟩ : Blob) ∧
    blobKey ⟨"b", some 50⟩ = blobKey ⟨"c", some 50⟩ ∧
    (∀ a ∈ demoTieList, blobKey a ≤ blobKey ⟨"b", some 50⟩) ∧
    ∃ m, choose_primary_blob demoTieList = some m ∧ m ∈ demoTieList ∧
      (∀ a ∈ demoTieList, blobKey a ≤ blobKey m) ∧
      ∀ a ∈ demoTieList, blobKey m ≤ blobKey a →
        demoTieList.indexOf m ≤ demoTieList.indexOf a :=
  ⟨by decide, by decide, by decide, by decide, by decide,
   claim_C10_selector_first_on_ties demoTieList ⟨"b", some 50⟩ ⟨"c", some 50⟩
     (by decide) (by decide) (by decide) (by decide) (by decide)⟩

/-- C3: the resolved identifier list is the sorted (code-point order),
duplicate-free list of the stripped, non-empty entries of both sources, and
permuting the combined raw input leaves the result unchanged. -/
theorem claim_C3_identifier_resolution (fl fl' : Option (List String))
    (ids ids' : List String) (l : List String)
    (hperm : (fl.getD [] ++ ids).Perm (fl'.getD [] ++ ids'))
    (hok : build_identifier_list fl ids = Except.ok l) :
    build_identifier_list fl' ids' = Except.ok l ∧
    List.Sorted strLe l ∧ l.Nodup ∧
    ∀ s, s ∈ l ↔ s ∈ (fl.getD [] ++ ids).map strip ∧ s ≠ "" := by
  have hl := build_identifier_list_ok hok
  refine ⟨by rw [← build_identifier_list_perm fl fl' ids ids' hperm]; exact hok, ?_, ?_, ?_⟩
  · rw [hl]
    exact List.sorted_insertionSort strLe _
  · rw [hl]
    exact (List.Perm.nodup_iff (List.perm_insertionSort strLe _)).mpr (List.nodup_dedup _)
  · intro s
    rw [hl, List.Perm.mem_iff (List.perm_insertionSort strLe _), List.mem_dedup,
      resolvedEntries_eq, List.mem_filter]
    simp

/-- Witness for C3: two supply orders of the same raw entries resolve to the
same sorted, deduplicated list. -/
theorem claim_C3_identifier_resolution_witness :
    ((some [" b ", "a "] : Option (List String)).getD [] ++ ["a", ""]).Perm
      ((some ["a"] : Option (List String)).getD [] ++ ["", " b ", "a "]) ∧
    build_identifier_list (some [" b ", "a "]) ["a", ""] = Except.ok ["a", "b"] ∧
    build_identifier_list (some ["a"]) ["", " b ", "a "] = Except.ok ["a", "b"] ∧
    List.Sorted strLe ["a", "b"] ∧ (["a", "b"] : List String).Nodup ∧
    ∀ s, s ∈ (["a", "b"] : List String) ↔
      s ∈ ((some [" b ", "a "] : Option (List String)).getD [] ++ ["a", ""]).map strip ∧
        s ≠ "" :=
  ⟨by decide, by rfl,
   claim_C3_identifier_resolution (some [" b ", "a "]) (some ["a"]) ["a", ""]
     ["", " b ", "a "] ["a", "b"] (by decide) (by rfl)⟩

/-- C4: a blob name is excluded by the candidate filter exactly when it ends
in `/` or its lowercased extension is outside the fixed allow-list. -/
theorem claim_C4_blob_filter (name : String) :
    blobEligible name = false ↔
      endsWithSlash name = true ∨
        lowerString (pathSuffix name) ∉
          ([".jpg", ".jpeg", ".png", ".webp", ".gif"] : List String) := by
  unfold blobEligible is_image_blob IMAGE_EXTENSIONS
  by_cases h1 : endsWithSlash name <;>
    by_cases h2 : lowerString (pathSuffix name) ∈
      ([".jpg", ".jpeg", ".png", ".webp", ".gif"] : List String) <;>
    simp [h1, h2]

/-- C6: when the cleaned identifier sources are empty, `main` fails with the
configuration error before any event — no client construction, no listing,
no download. -/
theorem claim_C6_empty_identifiers_fatal (store : Store)
    (fromFile : Option (List String)) (ids : List String) (bucket : String)
    (output : List String) (hempty : resolvedEntries fromFile ids = []) :
    main store fromFile ids bucket output =
      ([], Except.error "No identifiers provided. Use --id or --from-file.") := by
  have hb : build_identifier_list fromFile ids =
      Except.error "No identifiers provided. Use --id or --from-file." := by
    unfold build_identifier_list
    rw [hempty]
    rfl
  unfold main
  rw [hb]

/-- Witness for C6: whitespace-only inputs fail fatally with no events. -/
theorem claim_C6_empty_identifiers_fatal_witness :
    resolvedEntries (some ["  ", ""]) ["   "] = [] ∧
    main emptyStore (some ["  ", ""]) ["   "] "afaculty" ["out"] =
      ([], Except.error "No identifiers provided. Use --id or --from-file.") :=
  ⟨by decide,
   claim_C6_empty_identifiers_fatal emptyStore (some ["  ", ""]) ["   "] "afaculty"
     ["out"] (by decide)⟩

/-- C7: an identifier with no eligible blobs produces only a listing event
and a warning (no writes) and succeeds, and a run whose identifiers all
succeed (completing or being skipped) exits with code 0. -/
theorem claim_C7_skip_and_exit_zero :
    (∀ (store : Store) (bucket ident : String) (output : List String),
      filteredBlobs store bucket ident = [] →
      process_identifier store bucket ident output =
        ([Event.listBlobs bucket (listingRoot ident), Event.warnNoImages ident],
          Except.ok ())) ∧
    ∀ (store : Store) (fromFile : Option (List String)) (ids : List String)
      (bucket : String) (output : List String) (l : List String),
      build_identifier_list fromFile ids = Except.ok l →
      (∀ ident ∈ l, (process_identifier store bucket ident output).2 = Except.ok ()) →
      (main store fromFile ids bucket output).2 = Except.ok 0 := by
  constructor
  · intro store bucket ident output hempty
    simp only [process_identifier]
    rw [hempty]
    rfl
  · intro store fromFile ids bucket output l hok hall
    unfold main
    rw [hok]
    exact runIdentifiers_all_ok l hall

/-- Witness for C7 on a store with an empty listing. -/
theorem claim_C7_skip_and_exit_zero_witness :
    filteredBlobs emptyStore "afaculty" "x" = [] ∧
    process_identifier emptyStore "afaculty" "x" ["out"] =
      ([Event.listBlobs "afaculty" (listingRoot "x"), Event.warnNoImages "x"],
        Except.ok ()) ∧
    build_identifier_list none ["x"] = Except.ok ["x"] ∧
    (main emptyStore none ["x"] "afaculty" ["out"]).2 = Except.ok 0 :=
  ⟨by decide, claim_C7_skip_and_exit_zero.1 emptyStore "afaculty" "x" ["out"] (by decide),
   by rfl,
   claim_C7_skip_and_exit_zero.2 emptyStore none ["x"] "afaculty" ["out"] ["x"] (by rfl)
     (by
       intro i hi
       simp only [List.mem_singleton] at hi
       subst hi
       rfl)⟩

/-- C9: `choose_primary_blob` returns `some` on every non-empty list, so the
"Could not determine a portrait" warning is never emitted by
`process_identifier`. -/
theorem claim_C9_no_portrait_branch_unreachable :
    (∀ l : List Blob, l ≠ [] → (choose_primary_blob l).isSome = true) ∧
    ∀ (store : Store) (bucket ident : String) (output : List String) (i : String),
      Event.warnNoPortrait i ∉ (process_identifier store bucket ident output).1 := by
  constructor
  · intro l hl
    exact choose_primary_blob_isSome hl
  · intro store bucket ident output i
    by_cases hempty : filteredBlobs store bucket ident = []
    · simp only [process_identifier]
      rw [hempty]
      simp
    · obtain ⟨blob, hch⟩ :=
        Option.isSome_iff_exists.mp (choose_primary_blob_isSome hempty)
      rw [process_identifier_download store bucket ident output blob hempty hch]
      cases download_image store blob.name with
      | error e => simp
      | ok image =>
        simp only [List.mem_cons, not_or]
        refine ⟨by simp, by simp, ?_⟩
        intro hmem
        obtain ⟨p, a, b, habs⟩ := mem_saveAll_events THUMBNAILS _ hmem
        exact Event.noConfusion habs

/-- Witness for C9 on concrete inputs. -/
theorem claim_C9_no_portrait_branch_unreachable_witness :
    ([⟨"a", none⟩] : List Blob) ≠ [] ∧
    (choose_primary_blob [⟨"a", none⟩]).isSome = true ∧
    Event.warnNoPortrait "x" ∉ (process_identifier emptyStore "afaculty" "x" ["out"]).1 :=
  ⟨by decide, claim_C9_no_portrait_branch_unreachable.1 _ (by decide),
   claim_C9_no_portrait_branch_unreachable.2 emptyStore "afaculty" "x" ["out"] "x"⟩

/-- A decoded colour-with-alpha image, e.g. from a transparent PNG. -/
def rgbaImage : PILImage := ⟨100, 80, Mode.RGBA⟩

/-- A store holding one PNG that decodes to an RGBA image. -/
def rgbaStore : Store :=
  ⟨fun _ _ => [⟨"jane/pic.png", some 1000⟩], fun _ => Except.ok rgbaImage⟩

/-- A store holding one GIF that decodes to a palette-mode image. -/
def paletteStore : Store :=
  ⟨fun _ _ => [⟨"jane/pic.gif", some 7⟩], fun _ => Except.ok ⟨100, 80, Mode.P⟩⟩

/-- A store holding one JPEG that decodes to a 100 × 80 RGB image. -/
def rgbStore : Store :=
  ⟨fun _ _ => [⟨"jane/portrait.jpg", some 2048⟩], fun _ => Except.ok ⟨100, 80, Mode.RGB⟩⟩

/-- A store whose downloads fail with a transport error. -/
def failStore : Store :=
  ⟨fun _ _ => [⟨"a/pic.jpg", some 5⟩], fun _ => Except.error "connection reset"⟩

/-- C5, true half and failing input: a decoded mode outside `{RGB, RGBA}` is
converted to RGB, and every converted image then encodes; but an RGBA image
reaches the encoder unconverted and JPEG encoding fails on it. -/
theorem claim_C5_mode_normalization :
    (∀ (store : Store) (name : String) (image : PILImage),
      store.download name = Except.ok image →
      image.mode ≠ Mode.RGB → image.mode ≠ Mode.RGBA →
      download_image store name = Except.ok ⟨image.width, image.height, Mode.RGB⟩ ∧
      ∀ (dest : List String) (size : ℕ × ℕ),
        ∃ f, save_thumbnail ⟨image.width, image.height, Mode.RGB⟩ dest size =
          Except.ok f) ∧
    rgbaStore.download "jane/pic.png" = Except.ok rgbaImage ∧
    download_image rgbaStore "jane/pic.png" = Except.ok rgbaImage ∧
    save_thumbnail rgbaImage ["out", "jane", "cover.jpg"] (512, 512) =
      Except.error "cannot write mode RGBA as JPEG" := by
  refine ⟨?_, rfl, rfl, rfl⟩
  intro store name image hdl h1 h2
  have hnot : ¬(image.mode = Mode.RGB ∨ image.mode = Mode.RGBA) := by
    intro hor
    rcases hor with h | h
    · exact h1 h
    · exact h2 h
  have hconv : download_image store name =
      Except.ok ⟨image.width, image.height, Mode.RGB⟩ := by
    unfold download_image
    rw [hdl]
    simp only [Except.map]
    rw [if_neg hnot]
  refine ⟨hconv, ?_⟩
  intro dest size
  exact ⟨⟨dest, (thumbnail_size image.width image.height size.1 size.2).1,
    (thumbnail_size image.width image.height size.1 size.2).2⟩, rfl⟩

/-- Witness for C5's universally quantified half, at a palette-mode image. -/
theorem claim_C5_mode_normalization_witness :
    paletteStore.download "jane/pic.gif" = Except.ok ⟨100, 80, Mode.P⟩ ∧
    (⟨100, 80, Mode.P⟩ : PILImage).mode ≠ Mode.RGB ∧
    (⟨100, 80, Mode.P⟩ : PILImage).mode ≠ Mode.RGBA ∧
    download_image paletteStore "jane/pic.gif" = Except.ok ⟨100, 80, Mode.RGB⟩ ∧
    ∃ f, save_thumbnail ⟨100, 80, Mode.RGB⟩ ["out", "jane", "cover.jpg"] (512, 512) =
      Except.ok f :=
  ⟨by rfl, by decide, by decide,
   (claim_C5_mode_normalization.1 paletteStore "jane/pic.gif" ⟨100, 80, Mode.P⟩
     (by rfl) (by decide) (by decide)).1,
   (claim_C5_mode_normalization.1 paletteStore "jane/pic.gif" ⟨100, 80, Mode.P⟩
     (by rfl) (by decide) (by decide)).2 ["out", "jane", "cover.jpg"] (512, 512)⟩

/-- C1, counterexample to the claim as stated: this identifier's image is
successfully downloaded and decoded (an RGBA PNG), yet processing writes no
file at all — the first JPEG save rejects the un-normalized RGBA mode. -/
theorem claim_C1_counterexample :
    rgbaStore.download "jane/pic.png" = Except.ok rgbaImage ∧
    process_identifier rgbaStore "afaculty" "jane" ["out"] =
      ([Event.listBlobs "afaculty" "jane/", Event.download "jane/pic.png"],
        Except.error "cannot write mode RGBA as JPEG") :=
  ⟨rfl, rfl⟩

/-- C1 (amended with "and the decoded mode is not RGBA"): processing then
writes exactly the two files `<output>/<identifier>/cover.jpg` and
`<output>/<identifier>/profile.jpg`, whose dimensions fit the 512 × 512 and
256 × 256 boxes, never exceed the source's, and preserve the source's aspect
ratio up to integer rounding (cross-product within `max W H`). -/
theorem claim_C1_amended_two_bounded_thumbnails (store : Store) (bucket ident : String)
    (output : List String) (blob : Blob) (image : PILImage)
    (hch : choose_primary_blob (filteredBlobs store bucket ident) = some blob)
    (hdl : store.download blob.name = Except.ok image)
    (hmode : image.mode ≠ Mode.RGBA)
    (hw : 1 ≤ image.width) (hh : 1 ≤ image.height) :
    process_identifier store bucket ident output =
      ([Event.listBlobs bucket (listingRoot ident), Event.download blob.name,
        Event.writeFile (output ++ [ident] ++ ["cover.jpg"])
          (thumbnail_size image.width image.height 512 512).1
          (thumbnail_size image.width image.height 512 512).2,
        Event.writeFile (output ++ [ident] ++ ["profile.jpg"])
          (thumbnail_size image.width image.height 256 256).1
          (thumbnail_size image.width image.height 256 256).2],
        Except.ok ()) ∧
    (thumbnail_size image.width image.height 512 512).1 ≤ 512 ∧
    (thumbnail_size image.width image.height 512 512).2 ≤ 512 ∧
    (thumbnail_size image.width image.height 512 512).1 ≤ image.width ∧
    (thumbnail_size image.width image.height 512 512).2 ≤ image.height ∧
    |((thumbnail_size image.width image.height 512 512).1 : ℤ) * image.height -
      ((thumbnail_size image.width image.height 512 512).2 : ℤ) * image.width| ≤
      (max image.width image.height : ℤ) ∧
    (thumbnail_size image.width image.height 256 256).1 ≤ 256 ∧
    (thumbnail_size image.width image.height 256 256).2 ≤ 256 ∧
    (thumbnail_size image.width image.height 256 256).1 ≤ image.width ∧
    (thumbnail_size image.width image.height 256 256).2 ≤ image.height ∧
    |((thumbnail_size image.width image.height 256 256).1 : ℤ) * image.height -
      ((thumbnail_size image.width image.height 256 256).2 : ℤ) * image.width| ≤
      (max image.width image.height : ℤ) := by
  have hne : filteredBlobs store bucket ident ≠ [] := by
    intro hempty
    rw [hempty] at hch
    simp [choose_primary_blob] at hch
  have hdi : download_image store blob.name =
      Except.ok ⟨image.width, image.height, Mode.RGB⟩ := by
    unfold download_image
    rw [hdl]
    simp only [Except.map]
    by_cases hrgb : image.mode = Mode.RGB
    · rw [if_pos (Or.inl hrgb)]
      cases image
      simp_all
    · have hnot : ¬(image.mode = Mode.RGB ∨ image.mode = Mode.RGBA) := by
        intro hor
        rcases hor with h | h
        · exact hrgb h
        · exact hmode h
      rw [if_neg hnot]
  constructor
  · rw [process_identifier_download store bucket ident output blob hne hch]
    simp only [hdi]
    rw [saveAll_rgb]
  · have h512 := thumbnail_size_spec image.width image.height 512 512 hw hh
      (by norm_num) (by norm_num)
    have h256 := thumbnail_size_spec image.width image.height 256 256 hw hh
      (by norm_num) (by norm_num)
    obtain ⟨a1, a2, a3, a4, _, _, a7⟩ := h512
    obtain ⟨b1, b2, b3, b4, _, _, b7⟩ := h256
    exact ⟨a1, a2, a3, a4, a7, b1, b2, b3, b4, b7⟩

/-- Witness for the amended C1 at a 100 × 80 RGB source. -/
theorem claim_C1_amended_two_bounded_thumbnails_witness :
    choose_primary_blob (filteredBlobs rgbStore "afaculty" "jane") =
      some ⟨"jane/portrait.jpg", some 2048⟩ ∧
    rgbStore.download "jane/portrait.jpg" = Except.ok ⟨100, 80, Mode.RGB⟩ ∧
    (⟨100, 80, Mode.RGB⟩ : PILImage).mode ≠ Mode.RGBA ∧
    1 ≤ (⟨100, 80, Mode.RGB⟩ : PILImage).width ∧
    1 ≤ (⟨100, 80, Mode.RGB⟩ : PILImage).height ∧
    process_identifier rgbStore "afaculty" "jane" ["out"] =
      ([Event.listBlobs "afaculty" (listingRoot "jane"),
        Event.download "jane/portrait.jpg",
        Event.writeFile (["out"] ++ ["jane"] ++ ["cover.jpg"])
          (thumbnail_size 100 80 512 512).1 (thumbnail_size 100 80 512 512).2,
        Event.writeFile (["out"] ++ ["jane"] ++ ["profile.jpg"])
          (thumbnail_size 100 80 256 256).1 (thumbnail_size 100 80 256 256).2],
        Except.ok ()) :=
  ⟨by decide, by rfl, by decide, by decide, by decide,
   (claim_C1_amended_two_bounded_thumbnails rgbStore "afaculty" "jane" ["out"]
     ⟨"jane/portrait.jpg", some 2048⟩ ⟨100, 80, Mode.RGB⟩ (by decide) (by rfl)
     (by decide) (by decide) (by decide)).1⟩

/-- C8: a download or decode failure for the identifier at position `i` is
not caught: `main` stops with that error, its trace ends with that
identifier's events, and nothing is listed, downloaded or written for any
later identifier. -/
theorem claim_C8_failure_aborts_batch (store : Store) (fromFile : Option (List String))
    (ids : List String) (bucket : String) (output : List String)
    (pre post : List String) (ident : String) (e : String)
    (hok : build_identifier_list fromFile ids = Except.ok (pre ++ ident :: post))
    (hpre : ∀ a ∈ pre, (process_identifier store bucket a output).2 = Except.ok ())
    (herr : (process_identifier store bucket ident output).2 = Except.error e) :
    main store fromFile ids bucket output =
      (Event.clientConstructed ::
        ((pre.map fun a => (process_identifier store bucket a output).1).join ++
          (process_identifier store bucket ident output).1),
       Except.error e) := by
  simp only [main, hok]
  rw [runIdentifiers_append_ok pre (ident :: post) hpre,
    runIdentifiers_cons_error post herr]

/-- Witness for C8: a failing download for the first identifier aborts the
whole batch, leaving the second identifier unprocessed. -/
theorem claim_C8_failure_aborts_batch_witness :
    build_identifier_list none ["b", "a"] = Except.ok ([] ++ "a" :: ["b"]) ∧
    (∀ a ∈ ([] : List String),
      (process_identifier failStore "afaculty" a ["out"]).2 = Except.ok ()) ∧
    (process_identifier failStore "afaculty" "a" ["out"]).2 =
      Except.error "connection reset" ∧
    main failStore none ["b", "a"] "afaculty" ["out"] =
      (Event.clientConstructed ::
        ((([] : List String).map
            fun a => (process_identifier failStore "afaculty" a ["out"]).1).join ++
          (process_identifier failStore "afaculty" "a" ["out"]).1),
       Except.error "connection reset") :=
  ⟨by rfl, by simp, by rfl,
   claim_C8_failure_aborts_batch failStore none ["b", "a"] "afaculty" ["out"] [] ["b"]
     "a" "connection reset" (by rfl) (by simp) (by rfl)⟩

end CollectPortraits
